import Mathlib

/-!
Shallow embedding of `libmot/tracker/DAN/transforms.py`.

Floating-point values are modelled as rationals (`ℚ`); numpy arrays of boxes
as `List Box`; the correspondence matrix as `List (List ℚ)`; fallible code
(Python exceptions / assertion failures) as `Option` / `Except`.  Randomness
is modelled by passing the drawn values explicitly.
-/

namespace LibmotDAN

/-- A ground-truth box `(x1, y1, x2, y2)` in pixel coordinates. -/
structure Box where
  x1 : ℚ
  y1 : ℚ
  x2 : ℚ
  y2 : ℚ
deriving DecidableEq, Repr

/-- The correspondence ("labels") matrix, rows = frame-A boxes, columns = frame-B boxes. -/
abbrev Mat := List (List ℚ)

/-- Python `int(...)` truncation toward zero, applied to a rational. -/
def pyInt (q : ℚ) : ℤ := if 0 ≤ q then ⌊q⌋ else ⌈q⌉

/-- The validity predicate of the spec for one box in a `wF × hF` frame:
`x1 ≤ x2`, `y1 ≤ y2`, and all four coordinates inside `[0, wF) × [0, hF)`. -/
def boxValid (wF hF : ℚ) (b : Box) : Bool :=
  decide (b.x1 ≤ b.x2) && decide (b.y1 ≤ b.y2) &&
  decide (0 ≤ b.x1) && decide (b.x1 < wF) && decide (0 ≤ b.x2) && decide (b.x2 < wF) &&
  decide (0 ≤ b.y1) && decide (b.y1 < hF) && decide (0 ≤ b.y2) && decide (b.y2 < hF)

/-! ## RandomMirror (transforms.py lines 406-426)

`RandomMirror.mirror` flips the image and reassigns
`boxes[:, 0] = width - boxes[:, 0]` and `boxes[:, 2] = width - boxes[:, 2]`
(no swap of the two columns). -/

/-- `RandomMirror.mirror` acting on a box set of a frame of width `width`. -/
def mirrorBoxes (width : ℚ) (boxes : List Box) : List Box :=
  boxes.map (fun b => { b with x1 := width - b.x1, x2 := width - b.x2 })

/-- `RandomMirror.__call__`: with the drawn coin truthy, both box sets are mirrored
(in the pipeline both frames have the same width). -/
def randomMirror (coin : Bool) (width : ℚ) (boxesPre : List Box)
    (boxesNext : Option (List Box)) : List Box × Option (List Box) :=
  if coin then
    (mirrorBoxes width boxesPre, Option.map (mirrorBoxes width) boxesNext)
  else (boxesPre, boxesNext)

/-! ## ToPercentCoords (transforms.py lines 98-114) -/

/-- `ToPercentCoords` on one box: x coordinates divided by the frame width,
y coordinates by the frame height. -/
def toPercent (wF hF : ℚ) (b : Box) : Box :=
  ⟨b.x1 / wF, b.y1 / hF, b.x2 / wF, b.y2 / hF⟩

/-- `ToPercentCoords.__call__`: both box sets are divided by `img_pre`'s
width and height. -/
def toPercentCoords (wF hF : ℚ) (boxesPre : List Box) (boxesNext : Option (List Box)) :
    List Box × Option (List Box) :=
  (boxesPre.map (toPercent wF hF), Option.map (List.map (toPercent wF hF)) boxesNext)

/-- Multiplying a box's x coordinates back by the width and y coordinates by the
height (the inverse direction of the round-trip law). -/
def scaleBoxBack (wF hF : ℚ) (b : Box) : Box :=
  ⟨b.x1 * wF, b.y1 * hF, b.x2 * wF, b.y2 * hF⟩

/-! ## Transform constructors (error handling, §7 of the spec)

A constructor that can fail (Python `assert`) is modelled as returning
`Option` of its configuration record, `none` meaning the assertion raised. -/

/-- Configuration stored by `MoveBoxes.__init__`. -/
structure MoveBoxesCfg where
  offsetLow : ℚ
  offsetHigh : ℚ
  rangeWidth : ℚ
deriving DecidableEq, Repr

/-- `MoveBoxes.__init__(offset_low, offset_high)` (lines 52-55): it has no
assertion; it clamps `offset_low` at 0 and takes
`offset_high = max(offset_low, offset_high)`.  It never fails. -/
def moveBoxesInit (offsetLow offsetHigh : ℚ) : Option MoveBoxesCfg :=
  some { offsetLow := max offsetLow 0
         offsetHigh := max offsetLow offsetHigh
         rangeWidth := max offsetLow offsetHigh - max offsetLow 0 }

/-- Configuration of `RandomSaturation` / `RandomContrast`. -/
structure RangeCfg where
  lower : ℚ
  upper : ℚ
deriving DecidableEq, Repr

/-- `RandomSaturation.__init__(lower, upper)` (lines 132-136):
`assert upper >= lower`, then `assert lower >= 0`. -/
def randomSaturationInit (lower upper : ℚ) : Option RangeCfg :=
  if lower ≤ upper then (if 0 ≤ lower then some ⟨lower, upper⟩ else none) else none

/-- `RandomContrast.__init__(lower, upper)` (lines 206-210): same two assertions. -/
def randomContrastInit (lower upper : ℚ) : Option RangeCfg :=
  if lower ≤ upper then (if 0 ≤ lower then some ⟨lower, upper⟩ else none) else none

/-- Configuration of `RandomBrightness`. -/
structure DeltaCfg where
  delta : ℚ
deriving DecidableEq, Repr

/-- `RandomBrightness.__init__(delta)` (lines 224-227):
`assert delta >= 0.0`, then `assert delta <= 255.0`. -/
def randomBrightnessInit (delta : ℚ) : Option DeltaCfg :=
  if 0 ≤ delta then (if delta ≤ 255 then some ⟨delta⟩ else none) else none

/-! ## RandomSampleCrop.crop (transforms.py lines 256-327) -/

/-- A box or rectangle in `(x, y, w, h)` form, as fed to `iou`. -/
structure XYWH where
  x : ℚ
  y : ℚ
  w : ℚ
  h : ℚ
deriving DecidableEq, Repr

/-- `np.c_[boxes[:, :2], boxes[:, 2:] - boxes[:, :2]]`: a box reshaped to
`(x, y, w, h)`. -/
def toXYWH (b : Box) : XYWH := ⟨b.x1, b.y1, b.x2 - b.x1, b.y2 - b.y1⟩

/-- Modelled from the spec: the geometry primitive `libmot.utils.iou` is imported
by transforms.py but its code is not under src/.  Spec §2 describes it as
"box-overlap (IoU-style) computation between a set of boxes and a single
rectangle", i.e. the Jaccard overlap of each box with the rectangle, both given
in `(x, y, w, h)` form: intersection area divided by union area. -/
def iou1 (b r : XYWH) : ℚ :=
  let ix := max 0 (min (b.x + b.w) (r.x + r.w) - max b.x r.x)
  let iy := max 0 (min (b.y + b.h) (r.y + r.h) - max b.y r.y)
  let inter := ix * iy
  inter / (b.w * b.h + r.w * r.h - inter)

/-- Modelled from the spec: `iou` over a set of boxes returns one overlap value
per box. -/
def iou (boxes : List XYWH) (rect : XYWH) : List ℚ := boxes.map (fun b => iou1 b rect)

/-- `overlap.min()` of a nonempty numpy array (0 on the empty list, where the
real code would raise). -/
def listMin : List ℚ → ℚ
  | [] => 0
  | x :: t => t.foldl min x

/-- `overlap.max()` of a nonempty numpy array (0 on the empty list, where the
real code would raise). -/
def listMax : List ℚ → ℚ
  | [] => 0
  | x :: t => t.foldl max x

/-- The IoU check of `RandomSampleCrop.crop` (line 274):
`if overlap.min() < min_iou and max_iou < overlap.max(): return None`.
`min_iou = none` stands for `float('-inf')` (its clause is then always false)
and `max_iou = none` for `float('inf')` (its clause is then always false). -/
def iouReject (overlaps : List ℚ) (minIou maxIou : Option ℚ) : Bool :=
  (match minIou with
   | none => false
   | some m => decide (listMin overlaps < m)) &&
  (match maxIou with
   | none => false
   | some mM => decide (mM < listMax overlaps))

/-- The acceptance constraint as the spec words it (claim C1):
`min(IoU) ≥ min_iou AND max(IoU) ≤ max_iou`, a bound of ±infinity (`none`)
being a no-op. -/
def specIoUConstraint (overlaps : List ℚ) (minIou maxIou : Option ℚ) : Bool :=
  (match minIou with
   | none => true
   | some m => decide (m ≤ listMin overlaps)) &&
  (match maxIou with
   | none => true
   | some mM => decide (listMax overlaps ≤ mM))

/-- The integer crop rectangle `x1, y1, x2, y2`. -/
structure IRect where
  x1 : ℤ
  y1 : ℤ
  x2 : ℤ
  y2 : ℤ
deriving DecidableEq, Repr

/-- `rect = np.array([int(left), int(top), int(left + w), int(top + h)])`. -/
def rectOf (left top w h : ℚ) : IRect :=
  ⟨pyInt left, pyInt top, pyInt (left + w), pyInt (top + h)⟩

/-- Lines 284-290: a box's center `((x1+x2)/2, (y1+y2)/2)` lies strictly inside
the integer rectangle (`m1 * m2`). -/
def centerInRect (r : IRect) (b : Box) : Bool :=
  decide ((r.x1 : ℚ) < (b.x1 + b.x2) / 2) && decide ((r.y1 : ℚ) < (b.y1 + b.y2) / 2) &&
  decide ((r.x2 : ℚ) > (b.x1 + b.x2) / 2) && decide ((r.y2 : ℚ) > (b.y1 + b.y2) / 2)

/-- Lines 316-325: clip a surviving box to the rectangle and re-base it to
crop-local coordinates. -/
def cropClip (r : IRect) (b : Box) : Box :=
  ⟨max b.x1 (r.x1 : ℚ) - r.x1, max b.y1 (r.y1 : ℚ) - r.y1,
   min b.x2 (r.x2 : ℚ) - r.x1, min b.y2 (r.y2 : ℚ) - r.y1⟩

/-- numpy boolean-mask row selection `m[sel]` (for `sel` of the axis' length). -/
def selRows {α : Type} (xs : List α) (sel : List Bool) : List α :=
  ((xs.zip sel).filter (fun p => p.2)).map (fun p => p.1)

/-- A row of `n` zeros (`np.pad` with `constant_values=0.0`). -/
def zeroRow (n : ℕ) : List ℚ := List.replicate n 0

/-- Length of the numpy slice `a[i:j]` of an axis of length `n`, for the
nonnegative indices produced by `crop`. -/
def npSliceLen (n i j : ℤ) : ℤ := max 0 (min j n - min i n)

/-- Result of a successful `RandomSampleCrop.crop`: the cropped image (modelled
by its height and width), the surviving clipped boxes, and the re-padded
correspondence matrix. -/
structure CropRes where
  imgH : ℤ
  imgW : ℤ
  boxes : List Box
  labels : Mat
deriving DecidableEq, Repr

/-- `RandomSampleCrop.crop` (lines 256-327).  The image is modelled by its
height and width.  `none` models `return None` (a rejected trial). -/
def crop (imgH imgW : ℤ) (boxes : List Box) (labels : Mat) (minIou maxIou : Option ℚ)
    (w h left top : ℚ) (isPre : Bool) (maxObject : ℕ) : Option CropRes :=
  let r := rectOf left top w h
  let overlaps := iou (boxes.map toXYWH) ⟨left, top, w, h⟩
  if iouReject overlaps minIou maxIou then
    none
  else
    let imgH' := npSliceLen imgH r.y1 r.y2
    let imgW' := npSliceLen imgW r.x1 r.x2
    let mask := boxes.map (centerInRect r)
    if mask.any id = false then
      none
    else
      let currentBoxes := boxes.filter (centerInRect r)
      let maskPad := mask ++ List.replicate (maxObject - mask.length) false
      let maskFlip := maskPad.map (fun b => !b)
      let rowsL := labels.length
      let colsL := (labels.headD []).length
      let currentLabels :=
        if isPre then
          let kept := selRows labels (maskFlip.map (fun b => !b))
          kept ++ List.replicate (rowsL - kept.length) (zeroRow colsL)
        else
          let keptW := (maskFlip.map (fun b => !b)).count true
          labels.map (fun row => selRows row (maskFlip.map (fun b => !b)) ++ zeroRow (colsL - keptW))
      some ⟨imgH', imgW', currentBoxes.map (cropClip r), currentLabels⟩

/-- The mask of surviving boxes, zero-padded to `maxObject` entries (the value
of `np.pad(mask, (0, max_object - len(mask)))` before the double inversion). -/
def survMask (boxes : List Box) (r : IRect) (maxObject : ℕ) : List Bool :=
  boxes.map (centerInRect r) ++ List.replicate (maxObject - boxes.length) false

/-! ## RandomSampleCrop.__call__ (transforms.py lines 330-367)

The `while True` loop draws a mode from `sample_options` each iteration and
runs up to 50 trials for it; a trial draws `(w, h, left, top)`.  We model the
random stream as an explicit list of `ModeAttempt`s (one drawn mode together
with its pre-drawn trial tuples); `rscCall` consumes a finite prefix of that
stream and returns `none` when the prefix is exhausted with the loop still
running (the code would keep looping on further randomness). -/

/-- The per-sample input of `RandomSampleCrop.__call__`; images are modelled by
their dimensions. -/
structure Sample where
  preH : ℤ
  preW : ℤ
  nextDims : Option (ℤ × ℤ)
  boxesPre : List Box
  boxesNext : Option (List Box)
  labels : Mat
deriving DecidableEq, Repr

/-- The five-tuple returned by `RandomSampleCrop.__call__`. -/
structure RSCResult where
  preDims : ℤ × ℤ
  nextDims : Option (ℤ × ℤ)
  boxesPre : List Box
  boxesNext : Option (List Box)
  labels : Mat
deriving DecidableEq, Repr

/-- The unchanged input as a result (`return img_pre, img_next, boxes_pre,
boxes_next, labels`, line 336). -/
def inputResult (s : Sample) : RSCResult :=
  ⟨(s.preH, s.preW), s.nextDims, s.boxesPre, s.boxesNext, s.labels⟩

/-- One trial's random draws `(w, h, left, top)` (lines 347-355). -/
structure Trial where
  w : ℚ
  h : ℚ
  left : ℚ
  top : ℚ
deriving DecidableEq, Repr

/-- One body execution of the inner `for _ in range(50)` loop (lines 345-367):
the aspect-ratio check, the crop of the pre frame, and — when a next frame is
present — the crop of the next frame threaded with the pre crop's labels. -/
def runTrial (s : Sample) (maxObject : ℕ) (mi ma : Option ℚ) (t : Trial) :
    Option RSCResult :=
  if t.h / t.w < 1/2 ∨ t.h / t.w > 2 then none
  else
    match crop s.preH s.preW s.boxesPre s.labels mi ma t.w t.h t.left t.top true maxObject with
    | none => none
    | some rp =>
      match s.nextDims with
      | some nd =>
        match crop nd.1 nd.2 (s.boxesNext.getD []) rp.labels mi ma t.w t.h t.left t.top
            false maxObject with
        | none => none
        | some rn =>
          some ⟨(rp.imgH, rp.imgW), some (rn.imgH, rn.imgW), rp.boxes, some rn.boxes, rn.labels⟩
      | none => some ⟨(rp.imgH, rp.imgW), none, rp.boxes, s.boxesNext, s.labels⟩

/-- The first trial that returned (`return` inside the `for` loop). -/
def firstSome {α : Type} : List (Option α) → Option α
  | [] => none
  | none :: rest => firstSome rest
  | some r :: _ => some r

/-- One full mode iteration: at most 50 trials are run (`for _ in range(50)`),
and the first successful one returns. -/
def runMode (s : Sample) (maxObject : ℕ) (mi ma : Option ℚ) (trials : List Trial) :
    Option RSCResult :=
  firstSome ((trials.take 50).map (runTrial s maxObject mi ma))

/-- One iteration of the outer `while True` loop: the drawn mode (possibly
`None`) and the trial tuples drawn for it. -/
structure ModeAttempt where
  mode : Option (Option ℚ × Option ℚ)
  trials : List Trial
deriving DecidableEq, Repr

/-- `RandomSampleCrop.__call__` run on a finite prefix of the random stream:
a drawn `None` mode returns the input unchanged; a successful trial returns its
result; otherwise the `while True` loop continues with the next drawn mode.
`none` means the prefix was exhausted with the loop still running. -/
def rscCall (s : Sample) (maxObject : ℕ) : List ModeAttempt → Option RSCResult
  | [] => none
  | a :: rest =>
    match a.mode with
    | none => some (inputResult s)
    | some (mi, ma) =>
      match runMode s maxObject mi ma a.trials with
      | some r => some r
      | none => rscCall s maxObject rest

/-- `RandomSampleCrop.sample_options` (lines 244-254): `None` (use the whole
image) or a `(min_iou, max_iou)` pair with `None` components meaning ∓infinity. -/
def sampleOptions : List (Option (Option ℚ × Option ℚ)) :=
  [none,
   some (some (7/10), none),
   some (some (4/5), none),
   some (some (17/20), none),
   some (some (9/10), none),
   some (none, none)]

/-- The IoU check fires exactly when BOTH the min-bound and the max-bound are
violated (the literal `and` of line 274). -/
lemma iouReject_eq_true_iff (ov : List ℚ) (mi ma : Option ℚ) :
    iouReject ov mi ma = true ↔
      ((match mi with | none => False | some m => listMin ov < m) ∧
       (match ma with | none => False | some mM => mM < listMax ov)) := by
  cases mi <;> cases ma <;> simp [iouReject]

/-- `mask.any()` of `boxes.map f` is false iff `f` is false on every box. -/
lemma any_id_map_eq_false {α : Type} (f : α → Bool) (l : List α) :
    ((l.map f).any id = false) ↔ ∀ a ∈ l, f a = false := by
  induction l with
  | nil => simp
  | cons x t ih => simp [ih]

/-- The double inversion `mask = (mask == False)` followed by
`np.logical_not(mask)` restores the original mask. -/
lemma map_not_not (l : List Bool) : (l.map (fun b => !b)).map (fun b => !b) = l := by
  induction l with
  | nil => rfl
  | cons x t ih => simp [ih]

/-- Boolean-mask selection returns at most as many rows as it was given. -/
lemma selRows_length_le {α : Type} (xs : List α) (sel : List Bool) :
    (selRows xs sel).length ≤ xs.length := by
  unfold selRows
  rw [List.length_map]
  calc (List.filter (fun p => p.2) (xs.zip sel)).length
      ≤ (xs.zip sel).length := List.length_filter_le _ _
    _ ≤ xs.length := by rw [List.length_zip]; exact min_le_left _ _

/-- Every row returned by boolean-mask selection is a row of the input. -/
lemma selRows_mem {α : Type} (xs : List α) (sel : List Bool) (a : α)
    (ha : a ∈ selRows xs sel) : a ∈ xs := by
  unfold selRows at ha
  rcases List.mem_map.mp ha with ⟨p, hp, rfl⟩
  obtain ⟨x, b⟩ := p
  exact (List.of_mem_zip (List.mem_filter.mp hp).1).1

/-- When the mask has the axis' length, boolean-mask selection returns exactly
`count true` rows (numpy's sliced-axis length). -/
lemma selRows_length_eq {α : Type} (xs : List α) (sel : List Bool)
    (h : xs.length = sel.length) : (selRows xs sel).length = sel.count true := by
  induction xs generalizing sel with
  | nil =>
    cases sel with
    | nil => simp [selRows]
    | cons b t => simp at h
  | cons x xs ih =>
    cases sel with
    | nil => simp at h
    | cons b t =>
      have hh : xs.length = t.length := by simpa using h
      cases b with
      | false =>
        simpa [selRows, List.filter_cons, List.count_cons] using ih t hh
      | true =>
        simpa [selRows, List.filter_cons, List.count_cons] using ih t hh

/-! ## ResizeShuffleBoxes (transforms.py lines 483-541) -/

/-- A padded box row: `some b` is a real box, `none` is an `np.inf` sentinel
row added by `resize_f` (float infinity has no counterpart in ℚ; no arithmetic
is performed on the sentinel rows here). -/
abbrev PBox := Option Box

/-- `resize_f` (lines 492-500): the original count and the box set padded to
`max_object` rows. -/
def padBoxes (maxObject : ℕ) (boxes : List Box) : ℕ × List PBox :=
  (boxes.length, boxes.map some ++ List.replicate (maxObject - boxes.length) none)

/-- `labels.sum(0)`: the per-column sums of the matrix. -/
def colSums (m : Mat) : List ℚ :=
  (List.range (m.headD []).length).map (fun j => (m.map (fun row => row.getD j 0)).sum)

/-- `labels[indexes_pre, :]`: rows reordered by the drawn permutation. -/
def permRows (m : Mat) (idx : List ℕ) : Mat := idx.map (fun i => m.getD i [])

/-- `labels[:, indexes_next]`: columns reordered by the drawn permutation. -/
def permCols (m : Mat) (idx : List ℕ) : Mat :=
  m.map (fun row => idx.map (fun j => row.getD j 0))

/-- `indexes < size`: the validity mask of a permuted, padded box set. -/
def maskOf (idx : List ℕ) (size : ℕ) : List Bool := idx.map (fun i => decide (i < size))

/-- Lines 521-522: `(labels.sum(1) == 0).astype(float)` with entries at invalid
rows reset to `0.0`. -/
def falseObjRow (m : Mat) (mask : List Bool) : List ℚ :=
  List.zipWith (fun b v => if b then v else 0) mask
    (m.map (fun row => if row.sum = 0 then (1:ℚ) else 0))

/-- Lines 524-525: `(labels.sum(0) == 0).astype(float)` with entries at invalid
columns reset to `0.0`. -/
def falseObjCol (m : Mat) (mask : List Bool) : List ℚ :=
  List.zipWith (fun b v => if b then v else 0) mask
    ((colSums m).map (fun s => if s = 0 then (1:ℚ) else 0))

/-- Lines 527-532: append the no-match column, then the no-match row extended
with the final `0` (`np.append(false_object_next, [0])`). -/
def appendFalseObjects (m : Mat) (maskP maskN : List Bool) : Mat :=
  (List.zipWith (fun row v => row ++ [v]) m (falseObjRow m maskP)) ++
  [falseObjCol m maskN ++ [0]]

/-- The output of `ResizeShuffleBoxes.__call__`: `[boxes, mask]` for each frame
and the augmented label matrix. -/
structure RSBRes where
  boxesPre : List PBox
  maskPre : List Bool
  boxesNext : Option (List PBox)
  maskNext : Option (List Bool)
  labels : Mat
deriving DecidableEq, Repr

/-- `ResizeShuffleBoxes.__call__` (lines 490-541).  The drawn shuffles of
`np.arange(max_object)` are passed explicitly as `indexesPre`/`indexesNext`;
`paired` tells whether `img_next` is present. -/
def resizeShuffleBoxes (maxObject : ℕ) (paired : Bool) (boxesPre boxesNext : List Box)
    (labels : Mat) (indexesPre indexesNext : List ℕ) : RSBRes :=
  let sizePre := (padBoxes maxObject boxesPre).1
  let padP := (padBoxes maxObject boxesPre).2
  let boxesPre' := indexesPre.map (fun i => padP.getD i none)
  let maskPre := maskOf indexesPre sizePre
  if paired then
    let sizeNext := (padBoxes maxObject boxesNext).1
    let padN := (padBoxes maxObject boxesNext).2
    let boxesNext' := indexesNext.map (fun i => padN.getD i none)
    let maskNext := maskOf indexesNext sizeNext
    let labels2 := permCols (permRows labels indexesPre) indexesNext
    ⟨boxesPre', maskPre ++ [true], some boxesNext', some (maskNext ++ [true]),
     appendFalseObjects labels2 maskPre maskNext⟩
  else
    ⟨boxesPre', maskPre ++ [true], none, none, labels⟩

/-- Entry `(i, j)` of a matrix (0 outside the matrix). -/
def matEntry (m : Mat) (i j : ℕ) : ℚ := (m.getD i []).getD j 0

/-! ## PhotometricDistort (transforms.py lines 455-480) and its parts -/

/-- A pixel with three channels. -/
abbrev Pixel := ℚ × ℚ × ℚ

/-- An image as a height × width grid of pixels. -/
abbrev Img := List (List Pixel)

/-- `img + delta` on every channel (`RandomBrightness`). -/
def addToAll (d : ℚ) (img : Img) : Img :=
  img.map (List.map (fun p => (p.1 + d, p.2.1 + d, p.2.2 + d)))

/-- `img * alpha` on every channel (`RandomContrast`). -/
def mulAll (a : ℚ) (img : Img) : Img :=
  img.map (List.map (fun p => (p.1 * a, p.2.1 * a, p.2.2 * a)))

/-- `img[:, :, 1] * alpha` (`RandomSaturation`, second channel only). -/
def mulSat (a : ℚ) (img : Img) : Img :=
  img.map (List.map (fun p => (p.1, p.2.1 * a, p.2.2)))

/-- `RandomHue` on one hue value: add the drawn delta, then wrap once past 360
or below 0 (lines 157-159). -/
def hueShift1 (d x : ℚ) : ℚ :=
  let y := x + d
  if y > 360 then y - 360 else if y < 0 then y + 360 else y

/-- `RandomHue` applied to the first channel of every pixel. -/
def hueShift (d : ℚ) (img : Img) : Img :=
  img.map (List.map (fun p => (hueShift1 d p.1, p.2)))

/-- Channel accessor for `SwapChannels`. -/
def chan (p : Pixel) : ℕ → ℚ
  | 0 => p.1
  | 1 => p.2.1
  | _ => p.2.2

/-- `SwapChannels.__call__`: `image[:, :, swaps]`. -/
def swapChannelsF (sw : ℕ × ℕ × ℕ) (img : Img) : Img :=
  img.map (List.map (fun p => (chan p sw.1, chan p sw.2.1, chan p sw.2.2)))

/-- `RandomLightingNoise.perms` (lines 170-172). -/
def lightingPerms : List (ℕ × ℕ × ℕ) :=
  [(0, 1, 2), (0, 2, 1), (1, 0, 2), (1, 2, 0), (2, 0, 1), (2, 1, 0)]

/-- The random draws consumed by one `PhotometricDistort.__call__`: the coin
and delta of `rand_brightness`, the order coin choosing `pd[:-1]` vs `pd[1:]`,
the coins/values of the contrast, saturation and hue stages, and the coin and
permutation index of `rand_light_noise`. -/
structure PDraws where
  brightCoin : Bool
  brightDelta : ℚ
  orderCoin : Bool
  c1Coin : Bool
  c1Alpha : ℚ
  satCoin : Bool
  satAlpha : ℚ
  hueCoin : Bool
  hueDelta : ℚ
  c2Coin : Bool
  c2Alpha : ℚ
  noiseCoin : Bool
  noiseIdx : ℕ
deriving DecidableEq, Repr

/-- Apply one image operation to both frames of a pair. -/
def onPair (f : Img → Img) (p : Img × Img) : Img × Img := (f p.1, f p.2)

/-- `PhotometricDistort.__call__` (lines 468-480).  Its first statements are
`im_pre = img_pre.copy()` and `im_next = img_next.copy()`: when `img_next` is
`None` the second copy raises `AttributeError`, modelled as `Except.error`.
Otherwise `rand_brightness`, then `Compose(pd[:-1])` (contrast first) or
`Compose(pd[1:])` (contrast last) depending on the drawn coin, then
`rand_light_noise`.  The two `ConvertColor` stages call `cv2.cvtColor`, an
external library, and are passed in as the functions `bgr2hsv` / `hsv2bgr`. -/
def photometricDistort (bgr2hsv hsv2bgr : Img → Img) (d : PDraws)
    (imgPre : Img) (imgNext : Option Img) (boxesPre boxesNext : List Box) (labels : Mat) :
    Except String (Img × Img × List Box × List Box × Mat) :=
  match imgNext with
  | none => Except.error "AttributeError"
  | some imNext =>
    let s1 := if d.brightCoin then onPair (addToAll d.brightDelta) (imgPre, imNext)
              else (imgPre, imNext)
    let core := fun (s : Img × Img) =>
      let a := onPair bgr2hsv s
      let b := if d.satCoin then onPair (mulSat d.satAlpha) a else a
      let c := if d.hueCoin then onPair (hueShift d.hueDelta) b else b
      onPair hsv2bgr c
    let s2 := if d.orderCoin then
        core (if d.c1Coin then onPair (mulAll d.c1Alpha) s1 else s1)
      else
        (if d.c2Coin then onPair (mulAll d.c2Alpha) (core s1) else core s1)
    let s3 := if d.noiseCoin then
        onPair (swapChannelsF (lightingPerms.getD d.noiseIdx (0, 1, 2))) s2
      else s2
    Except.ok (s3.1, s3.2, boxesPre, boxesNext, labels)

/-- The names of the stages composed by `DANAugmentation.__init__`. -/
inductive StageName where
  | convertFromInts
  | moveBoxes
  | photometricDistortStage
  | expandStage
  | randomSampleCrop
  | randomMirror
  | toPercentCoordsStage
  | resize
  | subtractMeans
  | resizeShuffleBoxesStage
  | formatBoxes
  | toTensor
deriving DecidableEq, Repr

/-- The `type == 'train'` transform chain of `DANAugmentation.__init__`
(lines 606-621). -/
def danTrainStages : List StageName :=
  [StageName.convertFromInts,
   StageName.moveBoxes,
   StageName.photometricDistortStage,
   StageName.expandStage,
   StageName.randomSampleCrop,
   StageName.randomMirror,
   StageName.toPercentCoordsStage,
   StageName.resize,
   StageName.subtractMeans,
   StageName.resizeShuffleBoxesStage,
   StageName.formatBoxes,
   StageName.toTensor]

end LibmotDAN

namespace LibmotDAN

/-! ## Claim theorems for the elementary transforms -/

/-- C3: the spec claims every output box of a {mirror, expand, crop} sequence
satisfies `x1 ≤ x2`, `y1 ≤ y2` and lies in `[0, width) × [0, height)`.
The code of `RandomMirror.mirror` violates this: on a width-4 frame, the valid
box `(0, 0, 2, 2)` is mapped to `(4, 0, 2, 2)` (the two x columns are not
swapped), which has `x1 > x2` and `x1 = 4` outside `[0, 4)`. -/
theorem C3_mirror_breaks_box_invariant :
    boxValid 4 4 (Box.mk 0 0 2 2) = true ∧
    (randomMirror true 4 [Box.mk 0 0 2 2] none).1 = [Box.mk 4 0 2 2] ∧
    (∀ b ∈ (randomMirror true 4 [Box.mk 0 0 2 2] none).1, boxValid 4 4 b = false) := by
  have h : (randomMirror true 4 [Box.mk 0 0 2 2] none).1 = [Box.mk 4 0 2 2] := by
    norm_num [randomMirror, mirrorBoxes]
  refine ⟨by norm_num [boxValid], h, ?_⟩
  rw [h]
  intro b hb
  rw [List.mem_singleton] at hb
  subst hb
  norm_num [boxValid]

/-- C8: percent-normalization followed by multiplying back by (width, height)
reproduces the original coordinates exactly over ℚ, for both the frame-A and
the frame-B box set, whenever the frame dimensions are nonzero. -/
theorem C8_percent_roundtrip (wF hF : ℚ) (hw : wF ≠ 0) (hh : hF ≠ 0)
    (boxesPre : List Box) (boxesNext : Option (List Box)) :
    (toPercentCoords wF hF boxesPre boxesNext).1.map (scaleBoxBack wF hF) = boxesPre ∧
    Option.map (List.map (scaleBoxBack wF hF)) (toPercentCoords wF hF boxesPre boxesNext).2
      = boxesNext := by
  have hpt : ∀ b : Box, scaleBoxBack wF hF (toPercent wF hF b) = b := by
    intro b
    cases b with
    | mk x1 y1 x2 y2 =>
      simp [toPercent, scaleBoxBack, div_mul_cancel₀, hw, hh]
  have hcomp : scaleBoxBack wF hF ∘ toPercent wF hF = id := funext hpt
  constructor
  · simp only [toPercentCoords, List.map_map]
    rw [hcomp, List.map_id]
  · cases boxesNext with
    | none => rfl
    | some l =>
      show some (List.map (scaleBoxBack wF hF) (List.map (toPercent wF hF) l)) = some l
      rw [List.map_map, hcomp, List.map_id]

/-- Witness for C8 at a concrete 100×50 frame. -/
theorem C8_percent_roundtrip_witness :
    (toPercentCoords 100 50 [Box.mk 10 20 30 40] (some [Box.mk 1 2 3 4])).1.map
        (scaleBoxBack 100 50) = [Box.mk 10 20 30 40] :=
  (C8_percent_roundtrip 100 50 (by norm_num) (by norm_num)
    [Box.mk 10 20 30 40] (some [Box.mk 1 2 3 4])).1

/-- C9 counterexample: the claim says an invalid range (upper < lower) makes
`MoveBoxes.__init__` fail, but `moveBoxesInit (1/2) (1/5)` succeeds (the code
has no assertion; it silently clamps). -/
theorem C9_moveboxes_does_not_fail :
    (moveBoxesInit (1/2) (1/5)).isSome = true ∧
    moveBoxesInit (1/2) (1/5) =
      some { offsetLow := 1/2, offsetHigh := 1/2, rangeWidth := 0 } := by
  constructor
  · rfl
  · norm_num [moveBoxesInit]

/-- C9 amended: `RandomSaturation`, `RandomContrast` and `RandomBrightness` do
fail fast at construction exactly on invalid ranges, but `MoveBoxes` never
fails — it clamps its offsets instead. -/
theorem C9_init_validation :
    (∀ l u : ℚ, (randomSaturationInit l u).isSome = true ↔ (l ≤ u ∧ 0 ≤ l)) ∧
    (∀ l u : ℚ, (randomContrastInit l u).isSome = true ↔ (l ≤ u ∧ 0 ≤ l)) ∧
    (∀ d : ℚ, (randomBrightnessInit d).isSome = true ↔ (0 ≤ d ∧ d ≤ 255)) ∧
    (∀ l u : ℚ, (moveBoxesInit l u).isSome = true) := by
  refine ⟨?_, ?_, ?_, ?_⟩
  · intro l u
    by_cases h1 : l ≤ u <;> by_cases h2 : (0:ℚ) ≤ l <;>
      simp [randomSaturationInit, h1, h2]
  · intro l u
    by_cases h1 : l ≤ u <;> by_cases h2 : (0:ℚ) ≤ l <;>
      simp [randomContrastInit, h1, h2]
  · intro d
    by_cases h1 : (0:ℚ) ≤ d <;> by_cases h2 : d ≤ 255 <;>
      simp [randomBrightnessInit, h1, h2]
  · intro l u
    simp [moveBoxesInit]

/-! ## Claim theorems for RandomSampleCrop.crop -/

/-- C1 counterexample: with a single box of IoU `1/100` against the crop
rectangle and mode `(0.7-style) min_iou = 1/2, max_iou = +inf`, the spec's
acceptance constraint fails (`min(IoU) < min_iou`), yet `crop` does NOT reject
the trial at the IoU check — it returns a result. -/
theorem C1_ioucheck_counterexample :
    specIoUConstraint (iou ([Box.mk 0 0 1 1].map toXYWH) (XYWH.mk 0 0 10 10))
        (some (1/2)) none = false ∧
    (crop 10 10 [Box.mk 0 0 1 1] [[1]] (some (1/2)) none 10 10 0 0 true 1).isSome = true := by
  have hov : iou ([Box.mk 0 0 1 1].map toXYWH) (XYWH.mk 0 0 10 10) = [1/100] := by
    norm_num [iou, iou1, toXYWH, min_def, max_def]
  constructor
  · rw [hov]
    norm_num [specIoUConstraint, listMin, listMax]
  · have hrej : iouReject (iou ([Box.mk 0 0 1 1].map toXYWH) (XYWH.mk 0 0 10 10))
        (some (1/2)) none = false := by
      simp [iouReject]
    have hr : rectOf 0 0 10 10 = IRect.mk 0 0 10 10 := by
      norm_num [rectOf, pyInt]
    have hc : centerInRect (IRect.mk 0 0 10 10) (Box.mk 0 0 1 1) = true := by
      norm_num [centerInRect]
    simp only [crop, hr, hrej, Bool.false_eq_true, if_false, hc]
    simp [hc]

/-- C1 amended: `crop` returns `None` if and only if EITHER both IoU bounds are
violated at once (`min(IoU) < min_iou` AND `max_iou < max(IoU)`, the literal
conjunction of line 274) OR no box center lies strictly inside the rectangle;
moreover every configured sampling mode has `max_iou = None` (+infinity), so
for the configured modes the IoU check never rejects anything. -/
theorem C1_reject_condition (imgH imgW : ℤ) (boxes : List Box) (labels : Mat)
    (mi ma : Option ℚ) (w h left top : ℚ) (isPre : Bool) (maxObject : ℕ)
    (hne : boxes ≠ []) :
    (crop imgH imgW boxes labels mi ma w h left top isPre maxObject = none ↔
      (((match mi with
         | none => False
         | some m => listMin (iou (boxes.map toXYWH) (XYWH.mk left top w h)) < m) ∧
        (match ma with
         | none => False
         | some mM => mM < listMax (iou (boxes.map toXYWH) (XYWH.mk left top w h)))) ∨
       (∀ b ∈ boxes, centerInRect (rectOf left top w h) b = false))) ∧
    sampleOptions.map (Option.map Prod.snd) =
      [none, some none, some none, some none, some none, some none] := by
  constructor
  · simp only [crop]
    split
    case isTrue hrej =>
      simp only [true_iff]
      exact Or.inl ((iouReject_eq_true_iff _ _ _).mp hrej)
    case isFalse hrej =>
      split
      case isTrue hmask =>
        simp only [true_iff]
        exact Or.inr ((any_id_map_eq_false _ _).mp hmask)
      case isFalse hmask =>
        constructor
        · intro habs
          exact absurd habs (by simp)
        · intro hor
          exfalso
          rcases hor with hviol | hcent
          · exact hrej ((iouReject_eq_true_iff _ _ _).mpr hviol)
          · exact hmask ((any_id_map_eq_false _ _).mpr hcent)
  · rfl

/-- Witness for C1's amended theorem at a concrete nonempty box set. -/
theorem C1_reject_condition_witness :
    ([Box.mk 0 0 1 1] ≠ ([] : List Box)) ∧
    sampleOptions.map (Option.map Prod.snd) =
      [none, some none, some none, some none, some none, some none] :=
  ⟨by simp,
   (C1_reject_condition 10 10 [Box.mk 0 0 1 1] [[1]] none none 10 10 0 0 true 1 (by simp)).2⟩

/-- C4: a ground-truth box is kept by `crop` iff its center lies strictly inside
the integer crop rectangle (the returned boxes are exactly the center-surviving
boxes, in order, clipped and re-based), and if no box's center lies strictly
inside the rectangle then the trial is rejected (`crop` returns `None`). -/
theorem C4_center_keep (imgH imgW : ℤ) (boxes : List Box) (labels : Mat)
    (mi ma : Option ℚ) (w h left top : ℚ) (isPre : Bool) (maxObject : ℕ)
    (hne : boxes ≠ []) :
    (∀ res, crop imgH imgW boxes labels mi ma w h left top isPre maxObject = some res →
       res.boxes = (boxes.filter (centerInRect (rectOf left top w h))).map
         (cropClip (rectOf left top w h))) ∧
    ((∀ b ∈ boxes, centerInRect (rectOf left top w h) b = false) →
       crop imgH imgW boxes labels mi ma w h left top isPre maxObject = none) := by
  constructor
  · intro res hres
    simp only [crop] at hres
    split at hres
    · exact absurd hres (by simp)
    · split at hres
      · exact absurd hres (by simp)
      · cases hres
        rfl
  · intro hall
    simp only [crop]
    split
    · rfl
    · split
      case isTrue => rfl
      case isFalse hmask =>
        exact absurd ((any_id_map_eq_false _ _).mpr hall) hmask

/-- Concrete evaluation of `crop`: a 10×10 frame, one box `(1,1,3,3)`, the 1×1
matrix `[[1]]`, no IoU bounds, crop rectangle `(0,0,10,10)`, `isPre`, capacity 1. -/
lemma cropEval1 :
    crop 10 10 [Box.mk 1 1 3 3] [[1]] none none 10 10 0 0 true 1 =
      some (CropRes.mk 10 10 [Box.mk 1 1 3 3] [[1]]) := by
  have hr : rectOf 0 0 10 10 = IRect.mk 0 0 10 10 := by
    norm_num [rectOf, pyInt]
  have hc : centerInRect (IRect.mk 0 0 10 10) (Box.mk 1 1 3 3) = true := by
    norm_num [centerInRect]
  have hclip : cropClip (IRect.mk 0 0 10 10) (Box.mk 1 1 3 3) = Box.mk 1 1 3 3 := by
    norm_num [cropClip, min_def, max_def]
  have hslice : npSliceLen 10 0 10 = 10 := by
    norm_num [npSliceLen, min_def, max_def]
  simp only [crop, hr]
  norm_num [iouReject, selRows, zeroRow, hclip, hslice, hc, List.filter_cons]

/-- Witness for C4 at the concrete instance of `cropEval1`. -/
theorem C4_center_keep_witness :
    crop 10 10 [Box.mk 1 1 3 3] [[1]] none none 10 10 0 0 true 1 =
      some (CropRes.mk 10 10 [Box.mk 1 1 3 3] [[1]]) ∧
    (CropRes.mk 10 10 [Box.mk 1 1 3 3] [[1]]).boxes =
      ([Box.mk 1 1 3 3].filter (centerInRect (rectOf 0 0 10 10))).map
        (cropClip (rectOf 0 0 10 10)) :=
  ⟨cropEval1,
   (C4_center_keep 10 10 [Box.mk 1 1 3 3] [[1]] none none 10 10 0 0 true 1 (by simp)).1
     (CropRes.mk 10 10 [Box.mk 1 1 3 3] [[1]]) cropEval1⟩

/-- C5: on an accepted trial, the correspondence matrix is sliced along the
axis matching the cropped frame — rows for frame A (`isPre`), columns for
frame B — keeping exactly the entries of surviving boxes (in order), and is
zero-padded back to the original row/column count, so the returned matrix has
the same shape as the input matrix. -/
theorem C5_labels_slice (imgH imgW : ℤ) (boxes : List Box) (labels : Mat)
    (mi ma : Option ℚ) (w h left top : ℚ) (isPre : Bool) (maxObject : ℕ) (res : CropRes)
    (hrows : labels.length = maxObject)
    (hcols : ∀ row ∈ labels, row.length = maxObject)
    (hb : boxes.length ≤ maxObject)
    (hsome : crop imgH imgW boxes labels mi ma w h left top isPre maxObject = some res) :
    res.labels.length = labels.length ∧
    (∀ row ∈ res.labels, row.length = maxObject) ∧
    (isPre = true →
      res.labels =
        selRows labels (survMask boxes (rectOf left top w h) maxObject) ++
        List.replicate
          (labels.length -
            (selRows labels (survMask boxes (rectOf left top w h) maxObject)).length)
          (zeroRow maxObject)) ∧
    (isPre = false →
      res.labels = labels.map (fun row =>
        selRows row (survMask boxes (rectOf left top w h) maxObject) ++
        zeroRow (maxObject -
          (survMask boxes (rectOf left top w h) maxObject).count true))) := by
  have hsurv : boxes.map (centerInRect (rectOf left top w h)) ++
      List.replicate (maxObject - (boxes.map (centerInRect (rectOf left top w h))).length) false
        = survMask boxes (rectOf left top w h) maxObject := by
    simp [survMask]
  have hsurvlen : (survMask boxes (rectOf left top w h) maxObject).length = maxObject := by
    simp only [survMask, List.length_append, List.length_map, List.length_replicate]
    omega
  simp only [crop, map_not_not] at hsome
  split at hsome
  · exact absurd hsome (by simp)
  · split at hsome
    · exact absurd hsome (by simp)
    · rw [hsurv] at hsome
      cases isPre with
      | true =>
        simp only [if_true, reduceIte] at hsome
        cases hsome
        simp only
        refine ⟨?_, ?_, ?_, fun habs => absurd habs (by simp)⟩
        · rw [List.length_append, List.length_replicate]
          have := selRows_length_le labels (survMask boxes (rectOf left top w h) maxObject)
          omega
        · intro row hrow
          rcases List.mem_append.mp hrow with hmem | hmem
          · exact hcols row (selRows_mem _ _ _ hmem)
          · have hrowz := List.eq_of_mem_replicate hmem
            subst hrowz
            cases labels with
            | nil => simp [selRows] at hmem
            | cons r t =>
              simp only [zeroRow, List.length_replicate, List.headD_cons]
              exact hcols r (by simp)
        · intro _
          cases labels with
          | nil => simp [selRows]
          | cons r t =>
            have hcl : (List.headD (r :: t) []).length = maxObject := by
              simpa using hcols r (by simp)
            rw [hcl]
      | false =>
        simp only [Bool.false_eq_true, if_false, reduceIte] at hsome
        cases hsome
        simp only
        refine ⟨by rw [List.length_map], ?_, fun habs => absurd habs (by simp), ?_⟩
        · intro row hrow
          rcases List.mem_map.mp hrow with ⟨r, hr, rfl⟩
          rw [List.length_append]
          have hrl : r.length = maxObject := hcols r hr
          have hsel := selRows_length_eq r (survMask boxes (rectOf left top w h) maxObject)
            (by rw [hrl, hsurvlen])
          have hcnt : (survMask boxes (rectOf left top w h) maxObject).count true ≤ maxObject := by
            have := List.count_le_length true (survMask boxes (rectOf left top w h) maxObject)
            rwa [hsurvlen] at this
          have hcl : (List.headD labels []).length = maxObject := by
            cases labels with
            | nil => simp at hr
            | cons a t => simpa using hcols a (by simp)
          rw [hcl, hsel, zeroRow, List.length_replicate]
          omega
        · intro _
          cases labels with
          | nil => rfl
          | cons a t =>
            have hcl : (List.headD (a :: t) []).length = maxObject := by
              simpa using hcols a (by simp)
            rw [hcl]

/-! ## Claim theorems for RandomSampleCrop.__call__ -/

/-- `firstSome` of a run of failures is a failure. -/
lemma firstSome_replicate_none {α : Type} (n : ℕ) :
    firstSome (List.replicate n (none : Option α)) = none := by
  induction n with
  | zero => rfl
  | succ k ih => simpa [List.replicate_succ, firstSome] using ih

/-- The failing trial of the C2 counterexample: on a 100-wide, 10-high frame,
every legitimate draw (w ∈ [80,100], h ∈ [8,10]) fails the aspect-ratio check,
so every trial of every mode attempt is rejected. -/
lemma runTrial_aspect_fail (s : Sample) (maxObject : ℕ) (mi ma : Option ℚ) :
    runTrial s maxObject mi ma (Trial.mk 80 8 0 0) = none := by
  have hcond : (Trial.mk 80 8 0 0).h / (Trial.mk 80 8 0 0).w < 1/2 ∨
      (Trial.mk 80 8 0 0).h / (Trial.mk 80 8 0 0).w > 2 := by
    left
    norm_num
  unfold runTrial
  rw [if_pos hcond]

/-- A mode attempt whose 50 trials all fail the aspect check rejects. -/
lemma runMode_aspect_fail (s : Sample) (maxObject : ℕ) (mi ma : Option ℚ) :
    runMode s maxObject mi ma (List.replicate 50 (Trial.mk 80 8 0 0)) = none := by
  rw [runMode, List.take_replicate]
  norm_num [List.map_replicate]
  rw [runTrial_aspect_fail]
  exact firstSome_replicate_none 50

/-- C2 counterexample: on a 100×10 frame, seven consecutive mode draws of
`(min_iou = 0.7, max_iou = ∞)` — a mode of `sample_options` — with 50
legitimate in-range trial draws each make `__call__` consume 350 trials
(more than 50 × 6 = 300, the claimed total bound) and still be looping: it has
neither returned a crop nor fallen back to the unchanged input. -/
theorem C2_unbounded_counterexample :
    rscCall (Sample.mk 10 100 none [Box.mk 0 0 5 5] none [[1]]) 80
      (List.replicate 7
        (ModeAttempt.mk (some (some (7/10), none))
          (List.replicate 50 (Trial.mk 80 8 0 0)))) = none ∧
    ((4/5 : ℚ) * 100 ≤ 80 ∧ (80:ℚ) ≤ 100 ∧ (4/5 : ℚ) * 10 ≤ 8 ∧ (8:ℚ) ≤ 10 ∧
     (0:ℚ) ≤ 100 - 80 ∧ (0:ℚ) ≤ 10 - 8) ∧
    some (some (7/10), none) ∈ sampleOptions := by
  refine ⟨?_, by norm_num, by simp [sampleOptions]⟩
  have hstep : ∀ k : ℕ,
      rscCall (Sample.mk 10 100 none [Box.mk 0 0 5 5] none [[1]]) 80
        (List.replicate k
          (ModeAttempt.mk (some (some (7/10), none))
            (List.replicate 50 (Trial.mk 80 8 0 0)))) = none := by
    intro k
    induction k with
    | zero => rfl
    | succ n ih =>
      rw [List.replicate_succ]
      simp only [rscCall]
      rw [runMode_aspect_fail]
      exact ih
  exact hstep 7

/-- C2 amended: each drawn mode runs at most 50 trials, and drawing the `None`
mode returns the input five-tuple unchanged; but (per the counterexample) the
outer loop itself is unbounded — modes are redrawn with replacement, so there
is no 50×(number of modes) bound on the total number of trials. -/
theorem C2_loop_structure :
    (∀ (s : Sample) (maxObject : ℕ) (mi ma : Option ℚ) (trials : List Trial),
        runMode s maxObject mi ma trials = runMode s maxObject mi ma (trials.take 50)) ∧
    (∀ (s : Sample) (maxObject : ℕ) (trials : List Trial) (rest : List ModeAttempt),
        rscCall s maxObject (ModeAttempt.mk none trials :: rest) = some (inputResult s)) := by
  constructor
  · intro s maxObject mi ma trials
    rw [runMode, runMode, List.take_take]
    norm_num
  · intro s maxObject trials rest
    rfl

/-! ## Claim theorems for ResizeShuffleBoxes -/

lemma falseObjRow_length (m : Mat) (mask : List Bool) :
    (falseObjRow m mask).length = min mask.length m.length := by
  simp [falseObjRow]

lemma falseObjCol_length (m : Mat) (mask : List Bool) :
    (falseObjCol m mask).length = min mask.length (m.headD []).length := by
  simp [falseObjCol, colSums]

/-- For `i < M`, entry `(i, M)` of the augmented matrix is the no-match row
indicator: the gated `labels.sum(1) == 0`. -/
lemma afo_row_entry (m : Mat) (maskP maskN : List Bool) (M i : ℕ)
    (hm : m.length = M) (hrow : ∀ row ∈ m, row.length = M) (hmp : maskP.length = M)
    (hi : i < M) :
    matEntry (appendFalseObjects m maskP maskN) i M =
      (if maskP.getD i false = true then
        (if (m.getD i []).sum = 0 then (1:ℚ) else 0) else 0) := by
  have hfo : (falseObjRow m maskP).length = M := by
    rw [falseObjRow_length, hmp, hm]
    omega
  have hcore : (List.zipWith (fun (row : List ℚ) v => row ++ [v]) m
      (falseObjRow m maskP)).length = M := by
    rw [List.length_zipWith, hfo, hm]
    omega
  have hic : i < (List.zipWith (fun (row : List ℚ) v => row ++ [v]) m
      (falseObjRow m maskP)).length := by omega
  have him : i < m.length := by omega
  rw [matEntry, appendFalseObjects, List.getD_append _ _ _ _ hic,
      List.getD_eq_getElem _ _ hic, List.getElem_zipWith]
  have hrl : (m[i]).length = M := hrow _ (List.getElem_mem him)
  rw [List.getD_append_right _ _ _ _ (le_of_eq hrl), hrl, Nat.sub_self,
      List.getD_cons_zero]
  simp only [falseObjRow, List.getElem_zipWith, List.getElem_map]
  rw [List.getD_eq_getElem maskP false (by omega : i < maskP.length),
      List.getD_eq_getElem m [] him]

/-- For `i < M`, the first `M` entries of row `i` of the augmented matrix form
row `i` of the permuted matrix. -/
lemma afo_row_take (m : Mat) (maskP maskN : List Bool) (M i : ℕ)
    (hm : m.length = M) (hrow : ∀ row ∈ m, row.length = M) (hmp : maskP.length = M)
    (hi : i < M) :
    ((appendFalseObjects m maskP maskN).getD i []).take M = m.getD i [] := by
  have hfo : (falseObjRow m maskP).length = M := by
    rw [falseObjRow_length, hmp, hm]
    omega
  have hic : i < (List.zipWith (fun (row : List ℚ) v => row ++ [v]) m
      (falseObjRow m maskP)).length := by
    rw [List.length_zipWith, hfo, hm]
    omega
  have him : i < m.length := by omega
  rw [appendFalseObjects, List.getD_append _ _ _ _ hic,
      List.getD_eq_getElem _ _ hic, List.getElem_zipWith]
  have hrl : (m[i]).length = M := hrow _ (List.getElem_mem him)
  rw [← hrl, List.take_left, List.getD_eq_getElem m [] him]

/-- For `j < M`, entry `(M, j)` of the augmented matrix is the no-match column
indicator: the gated `labels.sum(0) == 0`. -/
lemma afo_col_entry (m : Mat) (maskP maskN : List Bool) (M j : ℕ)
    (hm : m.length = M) (hrow : ∀ row ∈ m, row.length = M) (hmp : maskP.length = M)
    (hmn : maskN.length = M) (hj : j < M) :
    matEntry (appendFalseObjects m maskP maskN) M j =
      (if maskN.getD j false = true then
        (if ((m.map (fun row => row.getD j 0)).sum) = 0 then (1:ℚ) else 0) else 0) := by
  have hpos : 0 < M := lt_of_le_of_lt (Nat.zero_le j) hj
  have hhead : (m.headD []).length = M := by
    cases m with
    | nil => rw [← hm] at hpos; simp at hpos
    | cons r t => simpa using hrow r (by simp)
  have hfo : (falseObjRow m maskP).length = M := by
    rw [falseObjRow_length, hmp, hm]
    omega
  have hfoc : (falseObjCol m maskN).length = M := by
    rw [falseObjCol_length, hmn, hhead]
    omega
  have hcore : (List.zipWith (fun (row : List ℚ) v => row ++ [v]) m
      (falseObjRow m maskP)).length = M := by
    rw [List.length_zipWith, hfo, hm]
    omega
  rw [matEntry, appendFalseObjects, List.getD_append_right _ _ _ _ (le_of_eq hcore),
      hcore, Nat.sub_self, List.getD_cons_zero,
      List.getD_append _ _ _ _ (by omega : j < (falseObjCol m maskN).length),
      List.getD_eq_getElem _ _ (by omega : j < (falseObjCol m maskN).length)]
  simp only [falseObjCol, colSums, List.getElem_zipWith, List.getElem_map,
      List.getElem_range]
  rw [List.getD_eq_getElem maskN false (by omega : j < maskN.length)]

/-- For `j < M`, the first `M` rows of the augmented matrix restricted to
column `j` form column `j` of the permuted matrix. -/
lemma afo_take_map (m : Mat) (maskP maskN : List Bool) (M j : ℕ)
    (hm : m.length = M) (hrow : ∀ row ∈ m, row.length = M) (hmp : maskP.length = M)
    (hj : j < M) :
    ((appendFalseObjects m maskP maskN).take M).map (fun row => row.getD j 0) =
      m.map (fun row => row.getD j 0) := by
  have hfo : (falseObjRow m maskP).length = M := by
    rw [falseObjRow_length, hmp, hm]
    omega
  have hcore : (List.zipWith (fun (row : List ℚ) v => row ++ [v]) m
      (falseObjRow m maskP)).length = M := by
    rw [List.length_zipWith, hfo, hm]
    omega
  rw [appendFalseObjects, ← hcore, List.take_left]
  apply List.ext_getElem
  · rw [List.length_map, List.length_map, hcore, hm]
  · intro i h1 h2
    have him : i < m.length := by simpa using h2
    simp only [List.getElem_map, List.getElem_zipWith]
    have hjl : j < (m[i]).length := by
      rw [hrow _ (List.getElem_mem him)]
      exact hj
    rw [List.getD_append _ _ _ _ hjl]

/-- The bottom-right corner of the augmented matrix is the trailing `0` of
`np.append(false_object_next, [0])`. -/
lemma afo_corner (m : Mat) (maskP maskN : List Bool) (M : ℕ)
    (hm : m.length = M) (hrow : ∀ row ∈ m, row.length = M) (hmp : maskP.length = M)
    (hmn : maskN.length = M) :
    matEntry (appendFalseObjects m maskP maskN) M M = 0 := by
  have hfo : (falseObjRow m maskP).length = M := by
    rw [falseObjRow_length, hmp, hm]
    omega
  have hcore : (List.zipWith (fun (row : List ℚ) v => row ++ [v]) m
      (falseObjRow m maskP)).length = M := by
    rw [List.length_zipWith, hfo, hm]
    omega
  rw [matEntry, appendFalseObjects, List.getD_append_right _ _ _ _ (le_of_eq hcore),
      hcore, Nat.sub_self, List.getD_cons_zero]
  rcases Nat.eq_zero_or_pos M with h0 | hpos
  · subst h0
    have hmn0 : maskN = [] := List.length_eq_zero.mp hmn
    subst hmn0
    simp [falseObjCol]
  · have hhead : (m.headD []).length = M := by
      cases m with
      | nil => rw [← hm] at hpos; simp at hpos
      | cons r t => simpa using hrow r (by simp)
    have hfoc : (falseObjCol m maskN).length = M := by
      rw [falseObjCol_length, hmn, hhead]
      omega
    rw [List.getD_append_right _ _ _ _ (le_of_eq hfoc), hfoc, Nat.sub_self,
        List.getD_cons_zero]

/-- C6: in the produced `(M+1)×(M+1)` label matrix, for `i < M` entry `(i, M)`
is 1 iff row `i` is valid (its mask entry is True) and the first `M` entries of
row `i` sum to zero; symmetrically, for `j < M` entry `(M, j)` is 1 iff column
`j` is valid and its first `M` entries sum to zero; both returned validity
masks have length `M+1` and end in `True`. -/
theorem C6_no_match_rowcol (maxObject : ℕ) (bp bn : List Box) (labels : Mat)
    (indexesPre indexesNext : List ℕ) (out : RSBRes)
    (hP : indexesPre.length = maxObject) (hN : indexesNext.length = maxObject)
    (hout : resizeShuffleBoxes maxObject true bp bn labels indexesPre indexesNext = out) :
    (∀ i, i < maxObject →
      (matEntry out.labels i maxObject = 1 ↔
        (out.maskPre.getD i false = true ∧
         ((out.labels.getD i []).take maxObject).sum = 0))) ∧
    (∀ j, j < maxObject →
      (matEntry out.labels maxObject j = 1 ↔
        ((out.maskNext.getD []).getD j false = true ∧
         ((out.labels.take maxObject).map (fun row => row.getD j 0)).sum = 0))) ∧
    out.maskPre.length = maxObject + 1 ∧
    out.maskPre.getD maxObject false = true ∧
    (∃ mn, out.maskNext = some mn ∧ mn.length = maxObject + 1 ∧
      mn.getD maxObject false = true) := by
  subst hout
  simp only [resizeShuffleBoxes, reduceIte]
  have hl2len : (permCols (permRows labels indexesPre) indexesNext).length = maxObject := by
    simp [permCols, permRows, hP]
  have hl2row : ∀ row ∈ permCols (permRows labels indexesPre) indexesNext,
      row.length = maxObject := by
    intro row hrowm
    rcases List.mem_map.mp hrowm with ⟨r0, _, rfl⟩
    simp [hN]
  have hmPlen : (maskOf indexesPre (padBoxes maxObject bp).1).length = maxObject := by
    simp [maskOf, hP]
  have hmNlen : (maskOf indexesNext (padBoxes maxObject bn).1).length = maxObject := by
    simp [maskOf, hN]
  refine ⟨?_, ?_, ?_, ?_, ?_⟩
  · intro i hi
    rw [afo_row_entry _ _ _ maxObject i hl2len hl2row hmPlen hi,
        afo_row_take _ _ _ maxObject i hl2len hl2row hmPlen hi,
        List.getD_append _ _ _ _ (by omega : i < (maskOf indexesPre (padBoxes maxObject bp).1).length)]
    by_cases hb : (maskOf indexesPre (padBoxes maxObject bp).1).getD i false = true
    · by_cases hs : ((permCols (permRows labels indexesPre) indexesNext).getD i []).sum = 0
      · rw [if_pos hb, if_pos hs]
        exact iff_of_true rfl ⟨hb, hs⟩
      · rw [if_pos hb, if_neg hs]
        exact iff_of_false (by norm_num) (fun hc => hs hc.2)
    · rw [if_neg hb]
      exact iff_of_false (by norm_num) (fun hc => hb hc.1)
  · intro j hj
    rw [afo_col_entry _ _ _ maxObject j hl2len hl2row hmPlen hmNlen hj,
        afo_take_map _ _ _ maxObject j hl2len hl2row hmPlen hj]
    simp only [Option.getD_some]
    rw [List.getD_append _ _ _ _ (by omega : j < (maskOf indexesNext (padBoxes maxObject bn).1).length)]
    by_cases hb : (maskOf indexesNext (padBoxes maxObject bn).1).getD j false = true
    · by_cases hs :
        ((permCols (permRows labels indexesPre) indexesNext).map
          (fun row => row.getD j 0)).sum = 0
      · rw [if_pos hb, if_pos hs]
        exact iff_of_true rfl ⟨hb, hs⟩
      · rw [if_pos hb, if_neg hs]
        exact iff_of_false (by norm_num) (fun hc => hs hc.2)
    · rw [if_neg hb]
      exact iff_of_false (by norm_num) (fun hc => hb hc.1)
  · simp [hmPlen]
  · rw [List.getD_append_right _ _ _ _ (le_of_eq hmPlen), hmPlen, Nat.sub_self]
    rfl
  · refine ⟨maskOf indexesNext (padBoxes maxObject bn).1 ++ [true], rfl, by simp [hmNlen], ?_⟩
    rw [List.getD_append_right _ _ _ _ (le_of_eq hmNlen), hmNlen, Nat.sub_self]
    rfl

/-- Witness for C6 on a 1-object paired sample with the identity shuffles. -/
theorem C6_no_match_rowcol_witness :
    (([0] : List ℕ).length = 1) ∧
    (resizeShuffleBoxes 1 true [Box.mk 1 1 3 3] [Box.mk 1 1 3 3] [[1]] [0] [0]).maskPre.length
      = 1 + 1 :=
  ⟨rfl,
   (C6_no_match_rowcol 1 [Box.mk 1 1 3 3] [Box.mk 1 1 3 3] [[1]] [0] [0] _
     rfl rfl rfl).2.2.1⟩

/-- C7 counterexample: for a 1-object paired sample with identity shuffles and
matrix `[[1]]`, the produced 2×2 label matrix is `[[1,0],[0,0]]`; its corner
entry `(M, M) = (1, 1)` is 0, not 1 as the claim states. -/
theorem C7_corner_counterexample :
    matEntry (resizeShuffleBoxes 1 true [Box.mk 1 1 3 3] [Box.mk 1 1 3 3]
        [[1]] [0] [0]).labels 1 1 = 0 ∧
    matEntry (resizeShuffleBoxes 1 true [Box.mk 1 1 3 3] [Box.mk 1 1 3 3]
        [[1]] [0] [0]).labels 1 1 ≠ 1 := by
  have h : matEntry (resizeShuffleBoxes 1 true [Box.mk 1 1 3 3] [Box.mk 1 1 3 3]
      [[1]] [0] [0]).labels 1 1 = 0 := by
    have hc := afo_corner (permCols (permRows [[1]] [0]) [0])
      (maskOf [0] (padBoxes 1 [Box.mk 1 1 3 3]).1)
      (maskOf [0] (padBoxes 1 [Box.mk 1 1 3 3]).1) 1
      (by simp [permCols, permRows]) ?_ (by simp [maskOf]) (by simp [maskOf])
    · simp only [resizeShuffleBoxes, reduceIte]
      exact hc
    · intro row hrowm
      rcases List.mem_map.mp hrowm with ⟨r0, _, rfl⟩
      simp
  exact ⟨h, by rw [h]; norm_num⟩

/-- C7 amended: the bottom-right corner entry `(M, M)` of the produced
`(M+1)×(M+1)` label matrix is always 0 (the `np.append(false_object_next, [0])`
of line 530), not 1. -/
theorem C7_corner_entry (maxObject : ℕ) (bp bn : List Box) (labels : Mat)
    (indexesPre indexesNext : List ℕ) (out : RSBRes)
    (hP : indexesPre.length = maxObject) (hN : indexesNext.length = maxObject)
    (hout : resizeShuffleBoxes maxObject true bp bn labels indexesPre indexesNext = out) :
    matEntry out.labels maxObject maxObject = 0 := by
  subst hout
  simp only [resizeShuffleBoxes, reduceIte]
  apply afo_corner
  · simp [permCols, permRows, hP]
  · intro row hrowm
    rcases List.mem_map.mp hrowm with ⟨r0, _, rfl⟩
    simp [hN]
  · simp [maskOf, hP]
  · simp [maskOf, hN]

/-- Witness for C7's amended theorem on the same concrete sample. -/
theorem C7_corner_entry_witness :
    (([0] : List ℕ).length = 1) ∧
    matEntry (resizeShuffleBoxes 1 true [Box.mk 1 1 3 3] [Box.mk 1 1 3 3]
      [[1]] [0] [0]).labels 1 1 = 0 :=
  ⟨rfl,
   C7_corner_entry 1 [Box.mk 1 1 3 3] [Box.mk 1 1 3 3] [[1]] [0] [0] _ rfl rfl rfl⟩

/-! ## Claim theorem for PhotometricDistort -/

/-- C10: `PhotometricDistort.__call__` unconditionally copies `img_next`, so a
single-frame input (no second frame) raises instead of returning — for every
random draw, every color-conversion implementation and every box/label input;
and the 'train' pipeline of `DANAugmentation` contains the PhotometricDistort
stage, so it is only total on paired samples. -/
theorem C10_photometric_requires_pair :
    (∀ (bgr2hsv hsv2bgr : Img → Img) (d : PDraws) (imgPre : Img)
       (boxesPre boxesNext : List Box) (labels : Mat),
       photometricDistort bgr2hsv hsv2bgr d imgPre none boxesPre boxesNext labels =
         Except.error "AttributeError") ∧
    StageName.photometricDistortStage ∈ danTrainStages := by
  constructor
  · intro bgr2hsv hsv2bgr d imgPre boxesPre boxesNext labels
    rfl
  · simp [danTrainStages]

/-- Witness for C5 at the concrete instance of `cropEval1`. -/
theorem C5_labels_slice_witness :
    crop 10 10 [Box.mk 1 1 3 3] [[1]] none none 10 10 0 0 true 1 =
      some (CropRes.mk 10 10 [Box.mk 1 1 3 3] [[1]]) ∧
    (CropRes.mk 10 10 [Box.mk 1 1 3 3] [[1]]).labels.length = ([[1]] : Mat).length :=
  ⟨cropEval1,
   (C5_labels_slice 10 10 [Box.mk 1 1 3 3] [[1]] none none 10 10 0 0 true 1
     (CropRes.mk 10 10 [Box.mk 1 1 3 3] [[1]])
     (by simp) (by simp) (by simp) cropEval1).1⟩

end LibmotDAN
